import Mathlib

/-!
Verification of the embeddable Medical AI chat widget
(`widget.js`): widget state, the `sendMessage` operation with an explicit
network-result parameter, `reset`, `close`, `configure`
(JavaScript `Object.assign` on key/value lists), the `positions` lookup,
and the `parseMarkdown` rendering pipeline.

Nondeterministic inputs of the JavaScript (the DOM input element's value,
`Date.now()`, `Math.random()`, the network) are passed as explicit
parameters.  Strings are handled as `String` / `List Char`.
-/

set_option maxRecDepth 10000

/-! ## Configuration and widget state -/

/-- The widget configuration record: the string-valued fields of
`defaultConfig` in the source (the `apiUrl` and `testMode` fields, which no
claim touches, are omitted). -/
structure Config where
  theme : String
  position : String
  greeting : String
  title : String
  placeholder : String
  width : String
  height : String
deriving DecidableEq, Repr

/-- `defaultConfig` from the source (lines 10-21). -/
def defaultConfig : Config :=
  { theme := "blue"
  , position := "bottom-right"
  , greeting := "Hello! I'm your Medical AI Assistant. How can I help you today?"
  , title := "Medical AI Assistant"
  , placeholder := "Ask me about your health..."
  , width := "350px"
  , height := "500px" }

/-- A transcript message: `{ role, content, timestamp }` as pushed onto
`messages` in the source. -/
structure Message where
  role : String
  content : String
  timestamp : String
deriving DecidableEq, Repr

/-- The widget's module-level mutable state: `config`, `isOpen`,
`isMinimized`, `isLoading`, `messages`, `sessionId` (lines 24-40). -/
structure WidgetState where
  config : Config
  isOpen : Bool
  isMinimized : Bool
  isLoading : Bool
  messages : List Message
  sessionId : String
deriving DecidableEq, Repr

/-- `userId` (line 40): constant anonymous user tracking. -/
def userId : String := "anonymous"

/-! ## Session identifiers

`sessionId = 'widget_' + Date.now() + '_' + Math.random().toString(36).substr(2, 9)`.
`Date.now()` is modelled as a `Nat` parameter and the random base-36 suffix as a
`String` parameter.  JavaScript's number-to-string conversion of a natural
number is decimal digits; `natDigitsF` computes them (fuel-structured so that
it evaluates by kernel reduction). -/

/-- Decimal digits of `n`, most significant first, with explicit fuel. -/
def natDigitsF : Nat → Nat → List Char
  | 0, _ => []
  | f + 1, n =>
    if n < 10 then [Nat.digitChar n]
    else natDigitsF f (n / 10) ++ [Nat.digitChar (n % 10)]

/-- Decimal string of a natural number, as JavaScript string-coercion yields. -/
def natToStr (n : Nat) : String := String.mk (natDigitsF (n + 1) n)

/-- `'widget_' + Date.now() + '_' + rand` (lines 39 and 590). -/
def mkSessionId (t : Nat) (rand : String) : String :=
  "widget_" ++ natToStr t ++ "_" ++ rand

/-! ## JavaScript helpers -/

/-- JavaScript `String.prototype.trim` on ASCII whitespace: a character the
trim removes. -/
def isWsChar (c : Char) : Bool :=
  c == ' ' || c == '\t' || c == '\n' || c == '\r' || c == '\x0b' || c == '\x0c'

/-- Trim of a character list: drop whitespace at both ends. -/
def trimChars (l : List Char) : List Char :=
  (((l.dropWhile isWsChar).reverse).dropWhile isWsChar).reverse

/-- `message.trim()` as used in `sendMessage` (line 509). -/
def jsTrim (s : String) : String := String.mk (trimChars s.data)

/-- JavaScript `v || d` where `v` is a possibly-absent string: the default is
taken when the value is absent (`undefined`) or falsy (the empty string). -/
def jsOr (v : Option String) (d : String) : String :=
  match v with
  | none => d
  | some s => if s = "" then d else s

/-! ## The network interface of `sendMessage`

`fetch` and `response.json()` are modelled by an explicit result parameter:
either the transport fails (the `fetch` promise rejects), or a response
arrives with a status, a status text and a body whose JSON parse either
fails or yields an optional `response` field. -/

/-- Outcome of `response.json()`: a parse error, or the body's optional
`response` field. -/
inductive JsonBody where
  | parseError (emsg : String)
  | fields (response : Option String)
deriving DecidableEq, Repr

/-- Outcome of the `fetch` call. -/
inductive NetResult where
  | transportError (emsg : String)
  | response (status : Nat) (statusText : String) (body : JsonBody)
deriving DecidableEq, Repr

/-- The POST body sent to `/api/chat/widget-default` (lines 529-534). -/
structure ChatRequest where
  message : String
  conversation_id : String
  user_id : String
  source : String
  widget_session : Bool
deriving DecidableEq, Repr

/-- The synthesized assistant content of the catch branch (line 558). -/
def errContent (emsg : String) : String :=
  "I apologize, but I'm having trouble connecting right now. Error: " ++ emsg ++
    ". Please try again later or consult a healthcare professional for urgent medical concerns."

/-- The generic apology substituted for a falsy `data.response` (line 546). -/
def apologyText : String :=
  "I apologize, but I couldn't process your request properly."

/-- The message of the error thrown on a non-2xx response:
`HTTP ${response.status}: ${response.statusText}` (line 539). -/
def httpErrMsg (status : Nat) (statusText : String) : String :=
  "HTTP " ++ natToStr status ++ ": " ++ statusText

/-- `response.ok`: status in the 2xx range. -/
def statusOk (status : Nat) : Prop := 200 ≤ status ∧ status ≤ 299

instance (status : Nat) : Decidable (statusOk status) := by
  unfold statusOk; infer_instance

/-! ## The widget operations -/

/-- `sendMessage` (lines 505-565).  `inputVal` is the DOM input element's
value (`none` when `document.getElementById` finds no element), `now` the
timestamp `new Date().toISOString()`, `net` the network outcome.  Returns the
final state and the request issued (`none` when no network call is made). -/
def sendMessage (s : WidgetState) (inputVal : Option String) (now : String)
    (net : NetResult) : WidgetState × Option ChatRequest :=
  match inputVal with
  | none => (s, none)
  | some raw =>
    let message := jsTrim raw
    if message = "" ∨ s.isLoading then (s, none)
    else
      let withUser := s.messages ++ [{ role := "user", content := message, timestamp := now }]
      let req : ChatRequest :=
        { message := message, conversation_id := s.sessionId, user_id := userId
        , source := "embed-widget", widget_session := true }
      let reply : Message :=
        match net with
        | NetResult.transportError emsg =>
          { role := "assistant", content := errContent emsg, timestamp := now }
        | NetResult.response st stx body =>
          if statusOk st then
            match body with
            | JsonBody.parseError emsg =>
              { role := "assistant", content := errContent emsg, timestamp := now }
            | JsonBody.fields resp =>
              { role := "assistant", content := jsOr resp apologyText, timestamp := now }
          else
            { role := "assistant", content := errContent (httpErrMsg st stx), timestamp := now }
      ({ s with messages := withUser ++ [reply], isLoading := false }, some req)

/-- `MedicalAIWidget.close` (lines 574-577): only `isOpen` changes. -/
def close (s : WidgetState) : WidgetState := { s with isOpen := false }

/-- `MedicalAIWidget.reset` (lines 582-592): the transcript becomes the single
greeting message and a fresh session identifier is generated from the clock
and the random source. -/
def reset (s : WidgetState) (now : String) (t : Nat) (rand : String) : WidgetState :=
  { s with
    messages := [{ role := "assistant", content := s.config.greeting, timestamp := now }]
  , sessionId := mkSessionId t rand }

/-- The initial module state (lines 29-39). -/
def initState (now : String) (t : Nat) (rand : String) : WidgetState :=
  { config := defaultConfig
  , isOpen := false
  , isMinimized := false
  , isLoading := false
  , messages := [{ role := "assistant", content := defaultConfig.greeting, timestamp := now }]
  , sessionId := mkSessionId t rand }

/-! ## `configure`: JavaScript `Object.assign` on the configuration object

`configure(newConfig)` is `Object.assign(config, newConfig)` (lines 604-607):
the source's own enumerable keys are written onto the target one by one.  A
JavaScript object is modelled as a key/value list with distinct keys. -/

/-- Write one key: overwrite in place when present, append when absent. -/
def setKey : List (String × String) → String → String → List (String × String)
  | [], k, v => [(k, v)]
  | (k', v') :: rest, k, v =>
    if k' = k then (k, v) :: rest else (k', v') :: setKey rest k v

/-- `Object.assign(target, src)`: each key of `src` written onto `target`. -/
def objectAssign (target src : List (String × String)) : List (String × String) :=
  src.foldl (fun acc kv => setKey acc kv.1 kv.2) target

/-- `MedicalAIWidget.configure` (lines 604-607). -/
def configure (config newConfig : List (String × String)) : List (String × String) :=
  objectAssign config newConfig

/-- JavaScript property read on the modelled object. -/
def lookupKey : List (String × String) → String → Option String
  | [], _ => none
  | (k', v) :: rest, k => if k' = k then some v else lookupKey rest k

/-! ## Widget placement

`positions` (lines 47-52) and the container style interpolation
`positions[config.position] || positions['bottom-right']` (line 56). -/

/-- Result of a JavaScript property read on the `positions` object literal:
one of its own string values, a truthy non-string value inherited from
`Object.prototype` (a function, or the prototype object for `__proto__`),
or `undefined`. -/
inductive PropValue where
  | ownStr (s : String)
  | inherited (name : String)
  | undef
deriving DecidableEq, Repr

/-- The property names a plain object literal inherits from
`Object.prototype`: reading any of them yields a truthy non-string value. -/
def protoProps : List String :=
  ["constructor", "toString", "toLocaleString", "valueOf", "hasOwnProperty",
    "isPrototypeOf", "propertyIsEnumerable", "__proto__", "__defineGetter__",
    "__defineSetter__", "__lookupGetter__", "__lookupSetter__"]

/-- The `positions` object: placement CSS keyed by the position name for its
own four keys; reads of other names consult the prototype chain. -/
def positions (p : String) : PropValue :=
  if p = "bottom-right" then PropValue.ownStr "bottom: 20px; right: 20px;"
  else if p = "bottom-left" then PropValue.ownStr "bottom: 20px; left: 20px;"
  else if p = "top-right" then PropValue.ownStr "top: 20px; right: 20px;"
  else if p = "top-left" then PropValue.ownStr "top: 20px; left: 20px;"
  else if p ∈ protoProps then PropValue.inherited p
  else PropValue.undef

/-- JavaScript truthiness of a property-read result: a string is truthy when
non-empty, every inherited `Object.prototype` value is truthy, `undefined`
is falsy. -/
def isTruthy : PropValue → Bool
  | PropValue.ownStr s => s ≠ ""
  | PropValue.inherited _ => true
  | PropValue.undef => false

/-- `positions[config.position] || positions['bottom-right']`: the lookup
with the JavaScript falsy-fallback (`pos = none` models an absent `position`
value, whose lookup is `undefined`).  The value interpolated into the
container's `cssText` is the left operand whenever it is truthy — also when
it is a value inherited from `Object.prototype`. -/
def positionStyle (pos : Option String) : PropValue :=
  let v := match pos with
    | none => PropValue.undef
    | some p => positions p
  if isTruthy v then v else positions "bottom-right"

/-! ## `parseMarkdown` (lines 360-401)

The renderer is a chain of regex replacements over the message text.  Each
replacement is translated to a scanner over `List Char`:

* the header and list regexes carry the `m` flag and are anchored with `^`,
  so each is a per-line rewrite (`mapLinesL`);
* the inline regexes (`**`, `__`, `*`, `_`, triple and single backtick) are
  global scans with a lazy body; `.` does not cross a newline except in the
  `[\s\S]*?` of the fenced-code regex (`stopNl` distinguishes the two);
* `\n\n` and `\n` are literal global replacements (`replaceAllF`);
* the list wrap `/(<li>.*<\/li>)/s` is a single replacement whose `.` crosses
  newlines and is greedy: it spans from the first `<li>` to the last `</li>`
  of the whole string (`wrapListsL`).

The scanners that continue past a replaced region take explicit fuel (one
unit per consumed character suffices) so that they compute by kernel
reduction. -/

/-- Split a character list into its lines at `'\n'`. -/
def splitNl : List Char → List (List Char)
  | [] => [[]]
  | c :: cs =>
    match splitNl cs with
    | [] => [[c]]
    | l :: ls => if c = '\n' then [] :: l :: ls else (c :: l) :: ls

/-- Rejoin lines with `'\n'`. -/
def joinNl (ls : List (List Char)) : List Char := List.intercalate ['\n'] ls

/-- A per-line rewrite, as a `^`-anchored regex with the `m` flag performs. -/
def mapLinesL (f : List Char → List Char) (s : List Char) : List Char :=
  joinNl ((splitNl s).map f)

/-- First occurrence of `pat`: `some (a, b)` with the scanned text
`a ++ pat ++ b` and `a` shortest. -/
def splitFirstL (pat : List Char) : List Char → Option (List Char × List Char)
  | [] => none
  | c :: cs =>
    if pat.isPrefixOf (c :: cs) then some ([], (c :: cs).drop pat.length)
    else
      match splitFirstL pat cs with
      | some (a, b) => some (c :: a, b)
      | none => none

/-- Last occurrence of `pat`: `some (a, b)` with the scanned text
`a ++ pat ++ b` and `b` shortest. -/
def splitLastL (pat : List Char) : List Char → Option (List Char × List Char)
  | [] => none
  | c :: cs =>
    match splitLastL pat cs with
    | some (a, b) => some (c :: a, b)
    | none =>
      if pat.isPrefixOf (c :: cs) then some ([], (c :: cs).drop pat.length) else none

/-- `String.prototype.includes` on character lists. -/
def hasSubL (pat s : List Char) : Bool := (splitFirstL pat s).isSome

/-- Number of positions at which `pat` occurs in `s`. -/
def countSubL (pat : List Char) : List Char → Nat
  | [] => 0
  | c :: cs => (if pat.isPrefixOf (c :: cs) then 1 else 0) + countSubL pat cs

/-- The lazy body of an inline regex: scan for the earliest closing `delim`,
refusing to cross a newline when `stopNl` is set (as `.` does).  Returns the
body and the rest after the closing delimiter. -/
def findCloseL (delim : List Char) (stopNl : Bool) :
    List Char → Option (List Char × List Char)
  | [] => none
  | c :: cs =>
    if delim.isPrefixOf (c :: cs) then some ([], (c :: cs).drop delim.length)
    else if stopNl && c == '\n' then none
    else
      match findCloseL delim stopNl cs with
      | some (a, b) => some (c :: a, b)
      | none => none

/-- Global replacement of `delim body delim` by `lw body rw`, as the engine
scans: on a failed open the scan advances one character. -/
def replaceDelimF (fuel : Nat) (delim : List Char) (stopNl : Bool)
    (lw rw : List Char) : List Char → List Char
  | s =>
    match fuel, s with
    | 0, rest => rest
    | _ + 1, [] => []
    | f + 1, c :: cs =>
      if delim.isPrefixOf (c :: cs) then
        match findCloseL delim stopNl ((c :: cs).drop delim.length) with
        | some (body, rest) =>
          lw ++ body ++ rw ++ replaceDelimF f delim stopNl lw rw rest
        | none => c :: replaceDelimF f delim stopNl lw rw cs
      else c :: replaceDelimF f delim stopNl lw rw cs

/-- Global literal replacement, left to right, non-overlapping. -/
def replaceAllF (fuel : Nat) (pat rep : List Char) : List Char → List Char
  | s =>
    match fuel, s with
    | 0, rest => rest
    | _ + 1, [] => []
    | f + 1, c :: cs =>
      if pat.isPrefixOf (c :: cs) then rep ++ replaceAllF f pat rep ((c :: cs).drop pat.length)
      else c :: replaceAllF f pat rep cs

/-- `^### (.*$)` per line. -/
def headerRule3 (l : List Char) : List Char :=
  if ("### ").data.isPrefixOf l then ("<h3>").data ++ l.drop 4 ++ ("</h3>").data else l

/-- `^## (.*$)` per line. -/
def headerRule2 (l : List Char) : List Char :=
  if ("## ").data.isPrefixOf l then ("<h2>").data ++ l.drop 3 ++ ("</h2>").data else l

/-- `^# (.*$)` per line. -/
def headerRule1 (l : List Char) : List Char :=
  if ("# ").data.isPrefixOf l then ("<h1>").data ++ l.drop 2 ++ ("</h1>").data else l

/-- `^\* (.*$)` per line. -/
def starRule (l : List Char) : List Char :=
  if ("* ").data.isPrefixOf l then ("<li>").data ++ l.drop 2 ++ ("</li>").data else l

/-- `^- (.*$)` per line. -/
def dashRule (l : List Char) : List Char :=
  if ("- ").data.isPrefixOf l then ("<li>").data ++ l.drop 2 ++ ("</li>").data else l

/-- `^\+ (.*$)` per line. -/
def plusRule (l : List Char) : List Char :=
  if ("+ ").data.isPrefixOf l then ("<li>").data ++ l.drop 2 ++ ("</li>").data else l

/-- `^\d+\. (.*$)` per line: a nonempty digit run, a dot and a space. -/
def numRule (l : List Char) : List Char :=
  let ds := l.takeWhile Char.isDigit
  if ds ≠ [] ∧ (". ").data.isPrefixOf (l.drop ds.length) then
    ("<li>").data ++ l.drop (ds.length + 2) ++ ("</li>").data
  else l

/-- The four list-item rewrites of the source, in source order. -/
def listStages (s : List Char) : List Char :=
  mapLinesL numRule (mapLinesL plusRule (mapLinesL dashRule (mapLinesL starRule s)))

/-- The single greedy wrap `/(<li>.*<\/li>)/s`: from the first `<li>` to the
last `</li>` after it, one `<ul>` container; no change when no such pair
exists. -/
def wrapListsL (s : List Char) : List Char :=
  match splitFirstL ("<li>").data s with
  | none => s
  | some (a, r) =>
    match splitLastL ("</li>").data r with
    | none => s
    | some (m, q) =>
      a ++ ("<ul>").data ++ ("<li>").data ++ m ++ ("</li>").data ++ ("</ul>").data ++ q

/-- The final paragraph wrap (lines 396-398). -/
def paragraphWrap (s : List Char) : List Char :=
  if hasSubL ("<h1>").data s || hasSubL ("<h2>").data s || hasSubL ("<h3>").data s ||
      hasSubL ("<ul>").data s || hasSubL ("<pre>").data s then s
  else ("<p>").data ++ s ++ ("</p>").data

/-- The full rendering chain of `parseMarkdown`, in source order, on a
nonempty text. -/
def parseMarkdownL (s : List Char) : List Char :=
  let s1 := mapLinesL headerRule3 s
  let s2 := mapLinesL headerRule2 s1
  let s3 := mapLinesL headerRule1 s2
  let s4 := replaceDelimF (s3.length + 1) ("**").data true ("<strong>").data ("</strong>").data s3
  let s5 := replaceDelimF (s4.length + 1) ("__").data true ("<strong>").data ("</strong>").data s4
  let s6 := replaceDelimF (s5.length + 1) ("*").data true ("<em>").data ("</em>").data s5
  let s7 := replaceDelimF (s6.length + 1) ("_").data true ("<em>").data ("</em>").data s6
  let s8 := replaceDelimF (s7.length + 1) ("```").data false ("<pre><code>").data ("</code></pre>").data s7
  let s9 := replaceDelimF (s8.length + 1) ("`").data true ("<code>").data ("</code>").data s8
  let s10 := listStages s9
  let s11 := replaceAllF (s10.length + 1) ("\n\n").data ("</p><p>").data s10
  let s12 := replaceAllF (s11.length + 1) ("\n").data ("<br>").data s11
  let s13 := wrapListsL s12
  paragraphWrap s13

/-- `parseMarkdown` (lines 360-401): `''` on a falsy (empty) input, the
rendering chain otherwise. -/
def parseMarkdown (text : String) : String :=
  if text = "" then "" else String.mk (parseMarkdownL text.data)

/-- Value of a decimal digit string, for reasoning about `natToStr`. -/
def digitsVal (l : List Char) : Nat :=
  l.foldl (fun acc c => 10 * acc + (c.toNat - 48)) 0

/-! ## Helper lemmas -/

/-- Digit characters of a number below ten. -/
theorem digitChar_isDigit (m : Nat) (hm : m < 10) : (Nat.digitChar m).isDigit = true := by
  interval_cases m <;> decide

/-- Numeric value of the digit character of a number below ten. -/
theorem digitChar_val (m : Nat) (hm : m < 10) : (Nat.digitChar m).toNat - 48 = m := by
  interval_cases m <;> decide

/-- Every character `natDigitsF` emits is a decimal digit. -/
theorem natDigitsF_digits (f : Nat) : ∀ n, ∀ c ∈ natDigitsF f n, c.isDigit = true := by
  induction f with
  | zero => intro n c hc; simp [natDigitsF] at hc
  | succ f ih =>
    intro n c hc
    rw [natDigitsF] at hc
    by_cases hn : n < 10
    · simp [hn] at hc
      simpa [hc] using digitChar_isDigit n hn
    · simp [hn, List.mem_append] at hc
      rcases hc with hc | hc
      · exact ih (n / 10) c hc
      · simpa [hc] using digitChar_isDigit (n % 10) (Nat.mod_lt n (by norm_num))

/-- Appending one digit multiplies the value by ten and adds the digit. -/
theorem digitsVal_append_single (ds : List Char) (c : Char) :
    digitsVal (ds ++ [c]) = 10 * digitsVal ds + (c.toNat - 48) := by
  simp [digitsVal, List.foldl_append]

/-- With sufficient fuel, `natDigitsF` is a right inverse of digit-string
evaluation. -/
theorem natDigitsF_val (f : Nat) : ∀ n, n < f → digitsVal (natDigitsF f n) = n := by
  induction f with
  | zero => intro n hn; omega
  | succ f ih =>
    intro n hn
    rw [natDigitsF]
    by_cases h10 : n < 10
    · simp [h10, digitsVal, digitChar_val n h10]
    · have hrec : n / 10 < f := by
        have h1 : n / 10 < n := Nat.div_lt_self (by omega) (by norm_num)
        omega
      have hmod : n % 10 < 10 := Nat.mod_lt n (by norm_num)
      simp only [h10, if_false]
      rw [digitsVal_append_single, ih (n / 10) hrec, digitChar_val (n % 10) hmod]
      omega

/-- Decimal string conversion is injective. -/
theorem natToStr_inj (a b : Nat) (h : natToStr a = natToStr b) : a = b := by
  have hdata : natDigitsF (a + 1) a = natDigitsF (b + 1) b := congrArg String.data h
  have := congrArg digitsVal hdata
  rwa [natDigitsF_val (a + 1) a (by omega), natDigitsF_val (b + 1) b (by omega)] at this

/-- Splitting at the separating underscore: two decompositions around a
character absent from both left parts agree. -/
theorem splitUnderscoreL (a : List Char) :
    ∀ b r0 r1 : List Char, (∀ c ∈ a, c ≠ '_') → (∀ c ∈ b, c ≠ '_') →
      a ++ '_' :: r0 = b ++ '_' :: r1 → a = b ∧ r0 = r1 := by
  induction a with
  | nil =>
    intro b r0 r1 _ hb heq
    cases b with
    | nil => simpa using heq
    | cons x b' =>
      exfalso
      have hx : x = '_' := by
        have := congrArg (fun l => l.head?) heq
        simpa using this.symm
      exact hb x (by simp) hx
  | cons c a' ih =>
    intro b r0 r1 ha hb heq
    cases b with
    | nil =>
      exfalso
      have hc : c = '_' := by simpa using congrArg (fun l => l.head?) heq
      exact ha c (by simp) hc
    | cons x b' =>
      simp only [List.cons_append, List.cons.injEq] at heq
      obtain ⟨rfl, htail⟩ := heq
      obtain ⟨h1, h2⟩ := ih b' r0 r1 (fun d hd => ha d (by simp [hd]))
        (fun d hd => hb d (by simp [hd])) htail
      exact ⟨by rw [h1], h2⟩

/-- Session identifiers coincide only when the clock value and the random
suffix both coincide: the decimal clock part carries no underscore, so the
first underscore after the fixed prefix separates the two unambiguously. -/
theorem mkSessionId_inj (t0 t1 : Nat) (r0 r1 : String)
    (heq : mkSessionId t0 r0 = mkSessionId t1 r1) : t0 = t1 ∧ r0 = r1 := by
  have hdata := congrArg String.data heq
  simp only [mkSessionId, String.data_append, List.append_assoc] at hdata
  have hcancel := List.append_cancel_left hdata
  simp only [List.singleton_append] at hcancel
  have hd0 : ∀ c ∈ (natToStr t0).data, c ≠ '_' := by
    intro c hc
    have := natDigitsF_digits (t0 + 1) t0 c hc
    intro hc'
    rw [hc'] at this
    exact absurd this (by decide)
  have hd1 : ∀ c ∈ (natToStr t1).data, c ≠ '_' := by
    intro c hc
    have := natDigitsF_digits (t1 + 1) t1 c hc
    intro hc'
    rw [hc'] at this
    exact absurd this (by decide)
  obtain ⟨hts, hrs⟩ := splitUnderscoreL (natToStr t0).data (natToStr t1).data
    r0.data r1.data hd0 hd1 hcancel
  exact ⟨natToStr_inj t0 t1 (String.ext hts), String.ext hrs⟩

/-- An occurrence of a nonempty pattern anywhere makes `hasSubL` true. -/
theorem hasSubL_append_self (pat a b : List Char) (hne : pat ≠ []) :
    hasSubL pat (a ++ pat ++ b) = true := by
  induction a with
  | nil =>
    obtain ⟨p, ps, rfl⟩ : ∃ p ps, pat = p :: ps := by
      cases pat with
      | nil => exact absurd rfl hne
      | cons p ps => exact ⟨p, ps, rfl⟩
    have hpre : (p :: ps).isPrefixOf (p :: ps ++ b) = true := by
      rw [ List.isPrefixOf_iff_prefix]
      exact ⟨b, by simp⟩
    simp [hasSubL, splitFirstL, hpre]
  | cons c a ih =>
    simp only [hasSubL, List.cons_append] at ih ⊢
    rw [splitFirstL]
    split
    · simp
    · cases h : splitFirstL pat (a ++ pat ++ b) with
      | none => rw [h] at ih; simp at ih
      | some ab => cases ab; simp

/-- A pattern found in `t` is found in `x :: t`. -/
theorem hasSubL_cons (pat : List Char) (x : Char) (t : List Char)
    (h : hasSubL pat t = true) : hasSubL pat (x :: t) = true := by
  simp only [hasSubL] at h ⊢
  rw [splitFirstL]
  split
  · simp
  · cases hs : splitFirstL pat t with
    | none => rw [hs] at h; simp at h
    | some ab => cases ab; simp

/-- A pattern found in `t` is found in `s ++ t`. -/
theorem hasSubL_append_left (pat s t : List Char) (h : hasSubL pat t = true) :
    hasSubL pat (s ++ t) = true := by
  induction s with
  | nil => simpa using h
  | cons c s ih => exact hasSubL_cons pat c (s ++ t) ih

/-! ## Claims about `sendMessage` -/

/-- C1: with a non-blank trimmed message and `isLoading = false`, every
network outcome leaves `isLoading = false`; a transport error and a non-2xx
response each append the synthesized assistant message whose content is the
catch-branch template around the error text, and that template contains the
healthcare-professional recommendation. -/
theorem sendMessage_failure_safe (s : WidgetState) (raw now emsg stx : String)
    (st : Nat) (body : JsonBody) (net : NetResult)
    (h1 : jsTrim raw ≠ "") (h2 : s.isLoading = false) (h3 : ¬ statusOk st) :
    (sendMessage s (some raw) now net).1.isLoading = false ∧
    (sendMessage s (some raw) now (NetResult.transportError emsg)).1.messages
      = s.messages ++ [{ role := "user", content := jsTrim raw, timestamp := now },
          { role := "assistant", content := errContent emsg, timestamp := now }] ∧
    (sendMessage s (some raw) now (NetResult.response st stx body)).1.messages
      = s.messages ++ [{ role := "user", content := jsTrim raw, timestamp := now },
          { role := "assistant", content := errContent (httpErrMsg st stx), timestamp := now }] ∧
    hasSubL ("consult a healthcare professional").data (errContent emsg).data = true := by
  refine ⟨?_, ?_, ?_, ?_⟩
  · simp [sendMessage, h1, h2]
  · simp [sendMessage, h1, h2]
  · simp [sendMessage, h1, h2, h3]
  · have h4 : (errContent emsg).data
        = ("I apologize, but I'm having trouble connecting right now. Error: ").data ++
            (emsg.data ++
              (". Please try again later or consult a healthcare professional for urgent medical concerns.").data) := by
      simp [errContent, String.data_append]
    rw [h4]
    apply hasSubL_append_left
    apply hasSubL_append_left
    decide

/-- Witness for C1 at a concrete state, transport error and HTTP 503. -/
theorem sendMessage_failure_safe_witness :
    (sendMessage (initState "t0" 5 "r0") (some "hi") "t1"
        (NetResult.response 200 "OK" (JsonBody.fields (some "fine")))).1.isLoading = false ∧
    (sendMessage (initState "t0" 5 "r0") (some "hi") "t1"
        (NetResult.transportError "Failed to fetch")).1.messages
      = (initState "t0" 5 "r0").messages ++
          [{ role := "user", content := jsTrim "hi", timestamp := "t1" },
            { role := "assistant", content := errContent "Failed to fetch", timestamp := "t1" }] ∧
    (sendMessage (initState "t0" 5 "r0") (some "hi") "t1"
        (NetResult.response 503 "Service Unavailable" (JsonBody.fields none))).1.messages
      = (initState "t0" 5 "r0").messages ++
          [{ role := "user", content := jsTrim "hi", timestamp := "t1" },
            { role := "assistant", content := errContent (httpErrMsg 503 "Service Unavailable"),
              timestamp := "t1" }] ∧
    hasSubL ("consult a healthcare professional").data (errContent "Failed to fetch").data = true :=
  sendMessage_failure_safe (initState "t0" 5 "r0") "hi" "t1" "Failed to fetch"
    "Service Unavailable" 503 (JsonBody.fields none)
    (NetResult.response 200 "OK" (JsonBody.fields (some "fine")))
    (by decide) rfl (by decide)

/-- C6 (amended): on a 2xx response whose body parses, the appended assistant
content is the body's `response` field passed through the JavaScript falsy
fallback: the apology is substituted exactly when the field is absent or the
empty string, and a non-empty field value is used verbatim. -/
theorem sendMessage_success_response (s : WidgetState) (raw now stx : String)
    (st : Nat) (resp : Option String)
    (h1 : jsTrim raw ≠ "") (h2 : s.isLoading = false) (hok : statusOk st) :
    (sendMessage s (some raw) now
        (NetResult.response st stx (JsonBody.fields resp))).1.messages
      = s.messages ++ [{ role := "user", content := jsTrim raw, timestamp := now },
          { role := "assistant", content := jsOr resp apologyText, timestamp := now }] ∧
    (resp = none → jsOr resp apologyText = apologyText) ∧
    (resp = some "" → jsOr resp apologyText = apologyText) ∧
    (∀ v, resp = some v → v ≠ "" → jsOr resp apologyText = v) := by
  refine ⟨?_, ?_, ?_, ?_⟩
  · simp [sendMessage, h1, h2, hok]
  · rintro rfl; rfl
  · rintro rfl; rfl
  · rintro v rfl hv; simp [jsOr, hv]

/-- Witness for C6's amended theorem at a concrete 2xx exchange. -/
theorem sendMessage_success_response_witness :
    (sendMessage (initState "t0" 5 "r0") (some "hi") "t1"
        (NetResult.response 200 "OK" (JsonBody.fields (some "Take rest.")))).1.messages
      = (initState "t0" 5 "r0").messages ++
          [{ role := "user", content := jsTrim "hi", timestamp := "t1" },
            { role := "assistant", content := jsOr (some "Take rest.") apologyText,
              timestamp := "t1" }] ∧
    (some "Take rest." = none → jsOr (some "Take rest.") apologyText = apologyText) ∧
    (some "Take rest." = some "" → jsOr (some "Take rest.") apologyText = apologyText) ∧
    (∀ v, some "Take rest." = some v → v ≠ "" → jsOr (some "Take rest.") apologyText = v) :=
  sendMessage_success_response (initState "t0" 5 "r0") "hi" "t1" "OK" 200
    (some "Take rest.") (by decide) rfl (by decide)

/-- Counterexample to C6 as stated: a 2xx body whose `response` field is
present but the empty string still gets the apology substituted (the
JavaScript `||` treats the empty string as falsy), so the substitution does
not happen exactly when the field is absent. -/
theorem sendMessage_empty_response_counterexample :
    (sendMessage (initState "t0" 5 "r0") (some "hi") "t1"
        (NetResult.response 200 "OK" (JsonBody.fields (some "")))).1.messages.getLast?
      = some { role := "assistant", content := apologyText, timestamp := "t1" } ∧
    apologyText ≠ "" := by
  exact ⟨by decide, by decide⟩

/-- C2: while `isLoading = true`, `sendMessage` issues no network call and
returns the state unchanged, whatever the input value, the clock and the
network would have answered. -/
theorem sendMessage_loading_noop (s : WidgetState) (iv : Option String)
    (now : String) (net : NetResult) (h : s.isLoading = true) :
    sendMessage s iv now net = (s, none) := by
  cases iv with
  | none => rfl
  | some raw => simp [sendMessage, h]

/-- Witness for C2 at a concrete loading state. -/
theorem sendMessage_loading_noop_witness :
    sendMessage { initState "t0" 5 "r0" with isLoading := true } (some "hi") "t1"
        (NetResult.transportError "boom")
      = ({ initState "t0" 5 "r0" with isLoading := true }, none) :=
  sendMessage_loading_noop _ _ _ _ rfl

/-- C4: a message that is empty after trimming makes `sendMessage` a silent
no-op: state unchanged, no request issued. -/
theorem sendMessage_blank_noop (s : WidgetState) (raw now : String)
    (net : NetResult) (h : jsTrim raw = "") :
    sendMessage s (some raw) now net = (s, none) := by
  simp [sendMessage, h]

/-- Witness for C4 on a whitespace-only input. -/
theorem sendMessage_blank_noop_witness :
    sendMessage (initState "t0" 5 "r0") (some "   ") "t1"
        (NetResult.response 200 "OK" (JsonBody.fields (some "hello")))
      = (initState "t0" 5 "r0", none) :=
  sendMessage_blank_noop _ _ _ _ (by decide)

/-! ## Characterizing the list wrap -/

/-- `splitFirstL` decomposes its input around the pattern. -/
theorem splitFirstL_sound (pat : List Char) :
    ∀ s a b, splitFirstL pat s = some (a, b) → s = a ++ pat ++ b := by
  intro s
  induction s with
  | nil => intro a b h; simp [splitFirstL] at h
  | cons c cs ih =>
    intro a b h
    rw [splitFirstL] at h
    by_cases hp : pat.isPrefixOf (c :: cs) = true
    · rw [if_pos hp] at h
      obtain ⟨rfl, rfl⟩ : [] = a ∧ (c :: cs).drop pat.length = b := by
        simpa using h
      rw [ List.isPrefixOf_iff_prefix] at hp
      obtain ⟨t, ht⟩ := hp
      rw [← ht, List.drop_left]
      simp
    · rw [if_neg hp] at h
      cases hcs : splitFirstL pat cs with
      | none => rw [hcs] at h; simp at h
      | some ab =>
        obtain ⟨a', b'⟩ := ab
        rw [hcs] at h
        obtain ⟨rfl, rfl⟩ : c :: a' = a ∧ b' = b := by simpa using h
        have := ih a' b' hcs
        rw [this]
        simp

/-- The left part returned by `splitFirstL` holds no occurrence of the
pattern: the split is at the first occurrence. -/
theorem splitFirstL_first (pat : List Char) :
    ∀ s a b, splitFirstL pat s = some (a, b) → hasSubL pat a = false := by
  intro s
  induction s with
  | nil => intro a b h; simp [splitFirstL] at h
  | cons c cs ih =>
    intro a b h
    rw [splitFirstL] at h
    by_cases hp : pat.isPrefixOf (c :: cs) = true
    · rw [if_pos hp] at h
      obtain ⟨rfl, rfl⟩ : [] = a ∧ (c :: cs).drop pat.length = b := by simpa using h
      rfl
    · rw [if_neg hp] at h
      cases hcs : splitFirstL pat cs with
      | none => rw [hcs] at h; simp at h
      | some ab =>
        obtain ⟨a', b'⟩ := ab
        rw [hcs] at h
        obtain ⟨rfl, rfl⟩ : c :: a' = a ∧ b' = b := by simpa using h
        have iha := ih a' b' hcs
        have hnone : splitFirstL pat a' = none := by
          cases hsa : splitFirstL pat a' with
          | none => rfl
          | some x => rw [hasSubL, hsa] at iha; simp at iha
        have hnp : ¬ pat.isPrefixOf (c :: a') = true := by
          intro hpa
          apply hp
          rw [ List.isPrefixOf_iff_prefix] at hpa ⊢
          refine hpa.trans ⟨pat ++ b', ?_⟩
          have := splitFirstL_sound pat cs a' b' hcs
          simp [this]
        rw [hasSubL, splitFirstL, if_neg hnp, hnone]
        rfl

/-- `splitLastL` decomposes its input around the pattern. -/
theorem splitLastL_sound (pat : List Char) :
    ∀ s a b, splitLastL pat s = some (a, b) → s = a ++ pat ++ b := by
  intro s
  induction s with
  | nil => intro a b h; simp [splitLastL] at h
  | cons c cs ih =>
    intro a b h
    rw [splitLastL] at h
    cases hcs : splitLastL pat cs with
    | some ab =>
      obtain ⟨a', b'⟩ := ab
      rw [hcs] at h
      obtain ⟨rfl, rfl⟩ : c :: a' = a ∧ b' = b := by simpa using h
      have := ih a' b' hcs
      rw [this]
      simp
    | none =>
      rw [hcs] at h
      by_cases hp : pat.isPrefixOf (c :: cs) = true
      · rw [if_pos hp] at h
        obtain ⟨rfl, rfl⟩ : [] = a ∧ (c :: cs).drop pat.length = b := by simpa using h
        rw [ List.isPrefixOf_iff_prefix] at hp
        obtain ⟨t, ht⟩ := hp
        rw [← ht, List.drop_left]
        simp
      · rw [if_neg hp] at h
        simp at h

/-- When `splitLastL` finds nothing there is no occurrence at all. -/
theorem splitLastL_none (pat : List Char) :
    ∀ s, splitLastL pat s = none → hasSubL pat s = false := by
  intro s
  induction s with
  | nil => intro _; rfl
  | cons c cs ih =>
    intro h
    rw [splitLastL] at h
    cases hcs : splitLastL pat cs with
    | some ab => rw [hcs] at h; simp at h
    | none =>
      rw [hcs] at h
      by_cases hp : pat.isPrefixOf (c :: cs) = true
      · rw [if_pos hp] at h; simp at h
      · have ihcs := ih hcs
        have hnone : splitFirstL pat cs = none := by
          cases hsa : splitFirstL pat cs with
          | none => rfl
          | some x => rw [hasSubL, hsa] at ihcs; simp at ihcs
        rw [hasSubL, splitFirstL, if_neg hp, hnone]
        rfl

/-- The right part returned by `splitLastL` holds no occurrence of the
(nonempty) pattern: the split is at the last occurrence. -/
theorem splitLastL_last (pat : List Char) (hpat : pat ≠ []) :
    ∀ s a b, splitLastL pat s = some (a, b) → hasSubL pat b = false := by
  intro s
  induction s with
  | nil => intro a b h; simp [splitLastL] at h
  | cons c cs ih =>
    intro a b h
    rw [splitLastL] at h
    cases hcs : splitLastL pat cs with
    | some ab =>
      obtain ⟨a', b'⟩ := ab
      rw [hcs] at h
      obtain ⟨rfl, rfl⟩ : c :: a' = a ∧ b' = b := by simpa using h
      exact ih a' b' hcs
    | none =>
      rw [hcs] at h
      by_cases hp : pat.isPrefixOf (c :: cs) = true
      · rw [if_pos hp] at h
        obtain ⟨rfl, rfl⟩ : [] = a ∧ (c :: cs).drop pat.length = b := by simpa using h
        rw [ List.isPrefixOf_iff_prefix] at hp
        obtain ⟨t, ht⟩ := hp
        obtain ⟨p, ps, rfl⟩ : ∃ p ps, pat = p :: ps := by
          cases pat with
          | nil => exact absurd rfl hpat
          | cons p ps => exact ⟨p, ps, rfl⟩
        have hcs' : cs = ps ++ t := by
          have := ht
          simp only [List.cons_append, List.cons.injEq] at this
          exact this.2.symm
        have hdrop : (c :: cs).drop (p :: ps).length = t := by
          rw [← ht, List.drop_left]
        rw [hdrop]
        cases hb : hasSubL (p :: ps) t with
        | false => rfl
        | true =>
          exfalso
          have hmono := hasSubL_append_left (p :: ps) ps t hb
          rw [← hcs'] at hmono
          rw [splitLastL_none (p :: ps) cs hcs] at hmono
          exact Bool.false_ne_true hmono
      · rw [if_neg hp] at h
        simp at h

/-- The list wrap either changes nothing or inserts exactly one `ul`
container, spanning from the first `<li>` to the last `</li>`, everything
between the two staying inside it. -/
theorem wrapListsL_spec (s : List Char) :
    wrapListsL s = s ∨
    ∃ a m q, s = a ++ ("<li>").data ++ m ++ ("</li>").data ++ q ∧
      hasSubL ("<li>").data a = false ∧ hasSubL ("</li>").data q = false ∧
      wrapListsL s = a ++ ("<ul>").data ++ ("<li>").data ++ m ++
        ("</li>").data ++ ("</ul>").data ++ q := by
  cases h1 : splitFirstL ("<li>").data s with
  | none => left; simp [wrapListsL, h1]
  | some ar =>
    obtain ⟨a, r⟩ := ar
    cases h2 : splitLastL ("</li>").data r with
    | none => left; simp [wrapListsL, h1, h2]
    | some mq =>
      obtain ⟨m, q⟩ := mq
      right
      refine ⟨a, m, q, ?_, ?_, ?_, ?_⟩
      · have hs1 := splitFirstL_sound _ s a r h1
        have hs2 := splitLastL_sound _ r m q h2
        rw [hs1, hs2]
        simp [List.append_assoc]
      · exact splitFirstL_first _ s a r h1
      · exact splitLastL_last _ (by decide) r m q h2
      · simp [wrapListsL, h1, h2, List.append_assoc]

/-! ## Characterizing the list-item stage -/

/-- A newline-free text is a single line. -/
theorem splitNl_no_nl (l : List Char) (h : '\n' ∉ l) : splitNl l = [l] := by
  induction l with
  | nil => rfl
  | cons c cs ih =>
    simp only [List.mem_cons, not_or] at h
    rw [splitNl, ih h.2]
    have hcn : ¬ c = '\n' := fun hc => h.1 hc.symm
    simp [hcn]

/-- On a newline-free text a per-line rewrite is the rewrite itself. -/
theorem mapLinesL_single (f : List Char → List Char) (l : List Char) (h : '\n' ∉ l) :
    mapLinesL f l = f l := by
  rw [mapLinesL, splitNl_no_nl l h]
  simp [joinNl, List.intercalate]

/-- `starRule` leaves every line whose head is not `*` unchanged. -/
theorem starRule_skip (c : Char) (y : List Char) (h : c ≠ '*') :
    starRule (c :: y) = c :: y := by
  have hc : (("* ").data.isPrefixOf (c :: y)) = false := by
    rw [show ("* ").data = ['*', ' '] from rfl]
    cases hbe : ('*' == c) with
    | false => simp [List.isPrefixOf, hbe]
    | true => exact absurd (eq_of_beq hbe) (fun hh => h hh.symm)
  simp [starRule, hc]

/-- `dashRule` leaves every line whose head is not `-` unchanged. -/
theorem dashRule_skip (c : Char) (y : List Char) (h : c ≠ '-') :
    dashRule (c :: y) = c :: y := by
  have hc : (("- ").data.isPrefixOf (c :: y)) = false := by
    rw [show ("- ").data = ['-', ' '] from rfl]
    cases hbe : ('-' == c) with
    | false => simp [List.isPrefixOf, hbe]
    | true => exact absurd (eq_of_beq hbe) (fun hh => h hh.symm)
  simp [dashRule, hc]

/-- `plusRule` leaves every line whose head is not `+` unchanged. -/
theorem plusRule_skip (c : Char) (y : List Char) (h : c ≠ '+') :
    plusRule (c :: y) = c :: y := by
  have hc : (("+ ").data.isPrefixOf (c :: y)) = false := by
    rw [show ("+ ").data = ['+', ' '] from rfl]
    cases hbe : ('+' == c) with
    | false => simp [List.isPrefixOf, hbe]
    | true => exact absurd (eq_of_beq hbe) (fun hh => h hh.symm)
  simp [plusRule, hc]

/-- `numRule` leaves every line whose head is not a digit unchanged. -/
theorem numRule_skip (c : Char) (y : List Char) (h : c.isDigit = false) :
    numRule (c :: y) = c :: y := by
  simp [numRule, List.takeWhile_cons, h]

/-- `starRule` turns a `* `-led line into a list item. -/
theorem starRule_fires (rest : List Char) :
    starRule ('*' :: ' ' :: rest) = ("<li>").data ++ rest ++ ("</li>").data := by
  have hc : (("* ").data.isPrefixOf ('*' :: ' ' :: rest)) = true := by
    rw [show ("* ").data = ['*', ' '] from rfl]
    simp [List.isPrefixOf]
  simp [starRule, hc]

/-- `dashRule` turns a `- `-led line into a list item. -/
theorem dashRule_fires (rest : List Char) :
    dashRule ('-' :: ' ' :: rest) = ("<li>").data ++ rest ++ ("</li>").data := by
  have hc : (("- ").data.isPrefixOf ('-' :: ' ' :: rest)) = true := by
    rw [show ("- ").data = ['-', ' '] from rfl]
    simp [List.isPrefixOf]
  simp [dashRule, hc]

/-- `plusRule` turns a `+ `-led line into a list item. -/
theorem plusRule_fires (rest : List Char) :
    plusRule ('+' :: ' ' :: rest) = ("<li>").data ++ rest ++ ("</li>").data := by
  have hc : (("+ ").data.isPrefixOf ('+' :: ' ' :: rest)) = true := by
    rw [show ("+ ").data = ['+', ' '] from rfl]
    simp [List.isPrefixOf]
  simp [plusRule, hc]

/-- `takeWhile` over a satisfied block stops exactly at the first failure. -/
theorem takeWhile_all_append (p : Char → Bool) (ds : List Char) (x : Char)
    (t : List Char) (hall : ∀ c ∈ ds, p c = true) (hx : p x = false) :
    (ds ++ x :: t).takeWhile p = ds := by
  induction ds with
  | nil => simp [List.takeWhile_cons, hx]
  | cons d ds' ih =>
    have hd : p d = true := hall d (by simp)
    rw [List.cons_append, List.takeWhile_cons, hd]
    simp [ih (fun c hc => hall c (by simp [hc]))]

/-- `numRule` turns a digits-dot-space line into a list item. -/
theorem numRule_fires (ds rest : List Char) (hds : ds ≠ [])
    (hdig : ∀ c ∈ ds, c.isDigit = true) :
    numRule (ds ++ '.' :: ' ' :: rest) = ("<li>").data ++ rest ++ ("</li>").data := by
  have htake : (ds ++ '.' :: ' ' :: rest).takeWhile Char.isDigit = ds :=
    takeWhile_all_append Char.isDigit ds '.' (' ' :: rest) hdig (by decide)
  have hdrop : (ds ++ '.' :: ' ' :: rest).drop ds.length = '.' :: ' ' :: rest :=
    List.drop_left ds ('.' :: ' ' :: rest)
  have hdrop2 : (ds ++ '.' :: ' ' :: rest).drop (ds.length + 2) = rest := by
    rw [← List.drop_drop, hdrop]
    rfl
  have hdot : ((". ").data.isPrefixOf ('.' :: ' ' :: rest)) = true := by
    rw [show (". ").data = ['.', ' '] from rfl]
    simp [List.isPrefixOf]
  simp [numRule, htake, hds, hdrop, hdrop2, hdot]

/-- The list-item shape carries no newline when its body carries none. -/
theorem noNl_li (rest : List Char) (h : '\n' ∉ rest) :
    '\n' ∉ ("<li>").data ++ rest ++ ("</li>").data := by
  intro hm
  rcases List.mem_append.mp hm with hm | hm
  · rcases List.mem_append.mp hm with hm | hm
    · exact absurd hm (by decide)
    · exact h hm
  · exact absurd hm (by decide)

/-- The three later rules leave a produced list item unchanged. -/
theorem rules_skip_li (x : List Char) :
    dashRule (("<li>").data ++ x) = ("<li>").data ++ x ∧
      plusRule (("<li>").data ++ x) = ("<li>").data ++ x ∧
      numRule (("<li>").data ++ x) = ("<li>").data ++ x := by
  refine ⟨?_, ?_, ?_⟩
  · exact dashRule_skip '<' (['l', 'i', '>'] ++ x) (by decide)
  · exact plusRule_skip '<' (['l', 'i', '>'] ++ x) (by decide)
  · exact numRule_skip '<' (['l', 'i', '>'] ++ x) (by decide)

/-- A marker line is newline-free when its body is. -/
theorem noNl_marker (c : Char) (rest : List Char) (hc : c ≠ '\n') (h : '\n' ∉ rest) :
    '\n' ∉ (c :: ' ' :: rest) := by
  intro hm
  rcases List.mem_cons.mp hm with hm | hm
  · exact hc hm.symm
  · rcases List.mem_cons.mp hm with hm | hm
    · exact absurd hm (by decide)
    · exact h hm

/-- `listStages` on a single `* `-led line. -/
theorem listStages_star (rest : List Char) (h : '\n' ∉ rest) :
    listStages ('*' :: ' ' :: rest) = ("<li>").data ++ rest ++ ("</li>").data := by
  have h0 := noNl_marker '*' rest (by decide) h
  have hli := noNl_li rest h
  obtain ⟨hd, hp, hn⟩ := rules_skip_li (rest ++ ("</li>").data)
  rw [listStages, mapLinesL_single starRule _ h0, starRule_fires rest]
  rw [mapLinesL_single dashRule _ (by simpa [List.append_assoc] using hli)]
  rw [show ("<li>").data ++ rest ++ ("</li>").data
      = ("<li>").data ++ (rest ++ ("</li>").data) from by simp, hd]
  rw [mapLinesL_single plusRule _ (by simpa [List.append_assoc] using hli), hp]
  rw [mapLinesL_single numRule _ (by simpa [List.append_assoc] using hli), hn]

/-- `listStages` on a single `- `-led line. -/
theorem listStages_dash (rest : List Char) (h : '\n' ∉ rest) :
    listStages ('-' :: ' ' :: rest) = ("<li>").data ++ rest ++ ("</li>").data := by
  have h0 := noNl_marker '-' rest (by decide) h
  have hli := noNl_li rest h
  obtain ⟨_, hp, hn⟩ := rules_skip_li (rest ++ ("</li>").data)
  rw [listStages, mapLinesL_single starRule _ h0, starRule_skip '-' _ (by decide)]
  rw [mapLinesL_single dashRule _ h0, dashRule_fires rest]
  rw [mapLinesL_single plusRule _ (by simpa [List.append_assoc] using hli)]
  rw [show ("<li>").data ++ rest ++ ("</li>").data
      = ("<li>").data ++ (rest ++ ("</li>").data) from by simp, hp]
  rw [mapLinesL_single numRule _ (by simpa [List.append_assoc] using hli), hn]

/-- `listStages` on a single `+ `-led line. -/
theorem listStages_plus (rest : List Char) (h : '\n' ∉ rest) :
    listStages ('+' :: ' ' :: rest) = ("<li>").data ++ rest ++ ("</li>").data := by
  have h0 := noNl_marker '+' rest (by decide) h
  have hli := noNl_li rest h
  obtain ⟨_, _, hn⟩ := rules_skip_li (rest ++ ("</li>").data)
  rw [listStages, mapLinesL_single starRule _ h0, starRule_skip '+' _ (by decide)]
  rw [mapLinesL_single dashRule _ h0, dashRule_skip '+' _ (by decide)]
  rw [mapLinesL_single plusRule _ h0, plusRule_fires rest]
  rw [mapLinesL_single numRule _ (by simpa [List.append_assoc] using hli)]
  rw [show ("<li>").data ++ rest ++ ("</li>").data
      = ("<li>").data ++ (rest ++ ("</li>").data) from by simp, hn]

/-- `listStages` on a single numbered line. -/
theorem listStages_num (ds rest : List Char) (h : '\n' ∉ rest) (hds : ds ≠ [])
    (hdig : ∀ c ∈ ds, c.isDigit = true) :
    listStages (ds ++ '.' :: ' ' :: rest) = ("<li>").data ++ rest ++ ("</li>").data := by
  obtain ⟨d, ds', rfl⟩ : ∃ d ds', ds = d :: ds' := by
    cases ds with
    | nil => exact absurd rfl hds
    | cons d ds' => exact ⟨d, ds', rfl⟩
  have hd : d.isDigit = true := hdig d (by simp)
  have hdnstar : d ≠ '*' := fun hh => by rw [hh] at hd; exact absurd hd (by decide)
  have hdndash : d ≠ '-' := fun hh => by rw [hh] at hd; exact absurd hd (by decide)
  have hdnplus : d ≠ '+' := fun hh => by rw [hh] at hd; exact absurd hd (by decide)
  have h0 : '\n' ∉ (d :: (ds' ++ '.' :: ' ' :: rest)) := by
    intro hm
    rcases List.mem_cons.mp hm with hm | hm
    · rw [← hm] at hd; exact absurd hd (by decide)
    · rcases List.mem_append.mp hm with hm | hm
      · have := hdig '\n' (by simp [hm])
        exact absurd this (by decide)
      · rcases List.mem_cons.mp hm with hm | hm
        · exact absurd hm (by decide)
        · rcases List.mem_cons.mp hm with hm | hm
          · exact absurd hm (by decide)
          · exact h hm
  have hli := noNl_li rest h
  rw [listStages, List.cons_append, mapLinesL_single starRule _ h0,
    starRule_skip d _ hdnstar]
  rw [mapLinesL_single dashRule _ h0, dashRule_skip d _ hdndash]
  rw [mapLinesL_single plusRule _ h0, plusRule_skip d _ hdnplus]
  rw [mapLinesL_single numRule _ h0, ← List.cons_append,
    numRule_fires (d :: ds') rest hds hdig]

/-! ## Claims about `parseMarkdown` -/

/-- C8 (amended): at the renderer's list stage every line led by `* `, `- `,
`+ ` or digits-dot-space becomes a `li` element; the wrap step then creates
at most one list container per message, spanning from the first `<li>` to
the last `</li>`, and everything between the two — non-list content
included — ends up inside that single container, while content before the
first `<li>` and after the last `</li>` stays outside. -/
theorem listItems_wrap_spec (s rest ds : List Char) (hnl : '\n' ∉ rest)
    (hds : ds ≠ []) (hdig : ∀ c ∈ ds, c.isDigit = true) :
    listStages ('*' :: ' ' :: rest) = ("<li>").data ++ rest ++ ("</li>").data ∧
    listStages ('-' :: ' ' :: rest) = ("<li>").data ++ rest ++ ("</li>").data ∧
    listStages ('+' :: ' ' :: rest) = ("<li>").data ++ rest ++ ("</li>").data ∧
    listStages (ds ++ '.' :: ' ' :: rest) = ("<li>").data ++ rest ++ ("</li>").data ∧
    (wrapListsL s = s ∨
      ∃ a m q, s = a ++ ("<li>").data ++ m ++ ("</li>").data ++ q ∧
        hasSubL ("<li>").data a = false ∧ hasSubL ("</li>").data q = false ∧
        wrapListsL s = a ++ ("<ul>").data ++ ("<li>").data ++ m ++
          ("</li>").data ++ ("</ul>").data ++ q) :=
  ⟨listStages_star rest hnl, listStages_dash rest hnl, listStages_plus rest hnl,
    listStages_num ds rest hnl hds hdig, wrapListsL_spec s⟩

/-- Witness for C8's amended theorem at concrete lines and wrap input. -/
theorem listItems_wrap_spec_witness :
    listStages ('*' :: ' ' :: ['a']) = ("<li>").data ++ ['a'] ++ ("</li>").data ∧
    listStages ('-' :: ' ' :: ['a']) = ("<li>").data ++ ['a'] ++ ("</li>").data ∧
    listStages ('+' :: ' ' :: ['a']) = ("<li>").data ++ ['a'] ++ ("</li>").data ∧
    listStages (['1'] ++ '.' :: ' ' :: ['a']) = ("<li>").data ++ ['a'] ++ ("</li>").data ∧
    (wrapListsL ['x'] = ['x'] ∨
      ∃ a m q, ['x'] = a ++ ("<li>").data ++ m ++ ("</li>").data ++ q ∧
        hasSubL ("<li>").data a = false ∧ hasSubL ("</li>").data q = false ∧
        wrapListsL ['x'] = a ++ ("<ul>").data ++ ("<li>").data ++ m ++
          ("</li>").data ++ ("</ul>").data ++ q) :=
  listItems_wrap_spec ['x'] ['a'] ['1'] (by decide) (by decide) (by decide)

/-- Counterexample to C8 as stated: on two list runs separated by the
non-list line `x`, the renderer forms two `li` elements but only one `ul`
container, and the rendered `x` stands inside it (between the single
`<ul>` and `</ul>`), not outside. -/
theorem parseMarkdown_list_counterexample :
    parseMarkdown "* a\nx\n* b" = "<ul><li>a</li><br>x<br><li>b</li></ul>" ∧
    countSubL ("<ul>").data (parseMarkdownL ("* a\nx\n* b").data) = 1 ∧
    countSubL ("</ul>").data (parseMarkdownL ("* a\nx\n* b").data) = 1 ∧
    countSubL ("<li>").data (parseMarkdownL ("* a\nx\n* b").data) = 2 := by
  refine ⟨by decide, by decide, by decide, by decide⟩

/-- C7: on the round-trip input the renderer emits exactly one
strong-emphasis element wrapping bold, one emphasis element wrapping italic
and one inline-code element wrapping code. -/
theorem parseMarkdown_roundtrip :
    parseMarkdown "**bold** and *italic* and `code`"
      = "<p><strong>bold</strong> and <em>italic</em> and <code>code</code></p>" ∧
    countSubL ("<strong>").data (parseMarkdownL ("**bold** and *italic* and `code`").data) = 1 ∧
    countSubL ("</strong>").data (parseMarkdownL ("**bold** and *italic* and `code`").data) = 1 ∧
    countSubL ("<strong>bold</strong>").data
        (parseMarkdownL ("**bold** and *italic* and `code`").data) = 1 ∧
    countSubL ("<em>").data (parseMarkdownL ("**bold** and *italic* and `code`").data) = 1 ∧
    countSubL ("</em>").data (parseMarkdownL ("**bold** and *italic* and `code`").data) = 1 ∧
    countSubL ("<em>italic</em>").data
        (parseMarkdownL ("**bold** and *italic* and `code`").data) = 1 ∧
    countSubL ("<code>").data (parseMarkdownL ("**bold** and *italic* and `code`").data) = 1 ∧
    countSubL ("</code>").data (parseMarkdownL ("**bold** and *italic* and `code`").data) = 1 ∧
    countSubL ("<code>code</code>").data
        (parseMarkdownL ("**bold** and *italic* and `code`").data) = 1 := by
  refine ⟨by decide, by decide, by decide, by decide, by decide, by decide, by decide,
    by decide, by decide, by decide⟩

/-! ## Claims about `configure` -/

/-- Reading the key just written by `setKey` yields the written value. -/
theorem lookupKey_setKey_self (t : List (String × String)) (k v : String) :
    lookupKey (setKey t k v) k = some v := by
  induction t with
  | nil => simp [setKey, lookupKey]
  | cons kv rest ih =>
    obtain ⟨k', v'⟩ := kv
    by_cases h : k' = k
    · subst h; simp [setKey, lookupKey]
    · simp [setKey, lookupKey, h, ih]

/-- `setKey` leaves every other key's value unchanged. -/
theorem lookupKey_setKey_ne (t : List (String × String)) (k' k v : String)
    (h : k' ≠ k) : lookupKey (setKey t k' v) k = lookupKey t k := by
  induction t with
  | nil => simp [setKey, lookupKey, h]
  | cons kv rest ih =>
    obtain ⟨a, b⟩ := kv
    by_cases ha : a = k'
    · subst ha; simp [setKey, lookupKey, h]
    · simp [setKey, lookupKey, ha, ih]

/-- A key outside an object's key set reads as absent. -/
theorem lookupKey_none_of_not_mem (t : List (String × String)) (k : String)
    (h : k ∉ t.map Prod.fst) : lookupKey t k = none := by
  induction t with
  | nil => rfl
  | cons kv rest ih =>
    obtain ⟨a, b⟩ := kv
    simp only [List.map_cons, List.mem_cons, not_or] at h
    have hak : a ≠ k := fun hak => h.1 hak.symm
    simp [lookupKey, hak, ih h.2]

/-- C5: `configure` shallow-merges: every key reads as the partial's value
when the partial supplies one, and as the previous configuration's value
otherwise, so no unmentioned key is dropped. -/
theorem configure_shallow_merge (target src : List (String × String)) (k : String)
    (hnd : (src.map Prod.fst).Nodup) :
    lookupKey (configure target src) k = (lookupKey src k <|> lookupKey target k) := by
  induction src generalizing target with
  | nil => simp [configure, objectAssign, lookupKey]
  | cons kv rest ih =>
    obtain ⟨k0, v0⟩ := kv
    simp only [List.map_cons, List.nodup_cons] at hnd
    have hstep : configure target ((k0, v0) :: rest) = configure (setKey target k0 v0) rest := rfl
    rw [hstep, ih (setKey target k0 v0) hnd.2]
    by_cases hk : k0 = k
    · subst hk
      have hrest : lookupKey rest k0 = none :=
        lookupKey_none_of_not_mem rest k0 hnd.1
      simp [lookupKey, hrest, lookupKey_setKey_self]
    · simp [lookupKey, hk, lookupKey_setKey_ne target k0 k v0 hk]

/-- Witness for C5 on a concrete configuration and partial. -/
theorem configure_shallow_merge_witness :
    lookupKey (configure [("theme", "blue"), ("position", "bottom-right")] [("theme", "dark")])
        "position"
      = (lookupKey [("theme", "dark")] "position" <|>
          lookupKey [("theme", "blue"), ("position", "bottom-right")] "position") :=
  configure_shallow_merge [("theme", "blue"), ("position", "bottom-right")]
    [("theme", "dark")] "position" (by decide)

/-! ## Claims about `close`, `reset` and placement -/

/-- C3 (amended): for every prior state whose session identifier was produced
by the generator, `reset` yields a transcript of exactly the configured
greeting with role assistant, and a session identifier different from the
previous one whenever the clock value or the random suffix differs. -/
theorem reset_greeting_fresh_session (s : WidgetState) (now : String)
    (t0 t1 : Nat) (r0 r1 : String)
    (hs : s.sessionId = mkSessionId t0 r0)
    (hne : t0 ≠ t1 ∨ r0 ≠ r1) :
    (reset s now t1 r1).messages
      = [{ role := "assistant", content := s.config.greeting, timestamp := now }] ∧
    (reset s now t1 r1).sessionId ≠ s.sessionId := by
  refine ⟨rfl, ?_⟩
  intro heq
  rw [hs] at heq
  have h := mkSessionId_inj t1 t0 r1 r0 heq
  rcases hne with hne | hne
  · exact hne h.1.symm
  · exact hne h.2.symm

/-- Counterexample to C3 as stated: nothing prevents `Date.now()` and the
random suffix from repeating their values across a reset; when both collide
the generator reproduces the identical session identifier, so the new
identifier is not different from the previous one for every prior state. -/
theorem reset_collision_counterexample :
    (reset (initState "t0" 5 "abc") "t1" 5 "abc").sessionId
        = (initState "t0" 5 "abc").sessionId ∧
      (initState "t0" 5 "abc").sessionId = mkSessionId 5 "abc" :=
  ⟨rfl, rfl⟩

/-- Witness for C3's amended theorem at the initial state and an advanced
clock. -/
theorem reset_greeting_fresh_session_witness :
    (reset (initState "t0" 5 "abc") "t2" 6 "abc").messages
      = [{ role := "assistant", content := (initState "t0" 5 "abc").config.greeting,
            timestamp := "t2" }] ∧
    (reset (initState "t0" 5 "abc") "t2" 6 "abc").sessionId
      ≠ (initState "t0" 5 "abc").sessionId :=
  reset_greeting_fresh_session (initState "t0" 5 "abc") "t2" 5 6 "abc" "abc" rfl
    (Or.inl (by decide))

/-- C9: `close` sets `isOpen := false` and leaves the transcript and the
session identifier unchanged; `reset` leaves `isOpen` and `isMinimized`
unchanged. -/
theorem close_reset_frame (s : WidgetState) (now : String) (t : Nat) (rand : String) :
    (close s).isOpen = false ∧ (close s).messages = s.messages ∧
      (close s).sessionId = s.sessionId ∧ (close s).isMinimized = s.isMinimized ∧
      (reset s now t rand).isOpen = s.isOpen ∧
      (reset s now t rand).isMinimized = s.isMinimized :=
  ⟨rfl, rfl, rfl, rfl, rfl, rfl⟩

/-- C10 (amended): a `position` value outside the four placement keys that is
also not the name of an `Object.prototype` property, absent values included,
falls back to the bottom-right placement. -/
theorem positionStyle_fallback (pos : Option String)
    (h : ∀ q, pos = some q →
      (q ≠ "bottom-right" ∧ q ≠ "bottom-left" ∧ q ≠ "top-right" ∧ q ≠ "top-left") ∧
        q ∉ protoProps) :
    positionStyle pos = PropValue.ownStr "bottom: 20px; right: 20px;" := by
  cases pos with
  | none => rfl
  | some q =>
    obtain ⟨⟨h1, h2, h3, h4⟩, hproto⟩ := h q rfl
    simp [positionStyle, positions, h1, h2, h3, h4, hproto, isTruthy]

/-- Witness for C10's amended theorem at an unknown placement name and at an
absent value. -/
theorem positionStyle_fallback_witness :
    positionStyle (some "center") = PropValue.ownStr "bottom: 20px; right: 20px;" ∧
      positionStyle none = PropValue.ownStr "bottom: 20px; right: 20px;" :=
  ⟨positionStyle_fallback (some "center")
      (by intro q hq; cases hq; exact ⟨⟨by decide, by decide, by decide, by decide⟩, by decide⟩),
    positionStyle_fallback none (by intro q hq; cases hq)⟩

/-- Counterexample to C10 as stated: `"constructor"` is not one of the four
placement keys, yet the lookup finds the truthy function inherited from
`Object.prototype`, so the `||` fallback is not taken and the interpolated
value is not the bottom-right placement. -/
theorem positionStyle_proto_counterexample :
    positionStyle (some "constructor") = PropValue.inherited "constructor" ∧
      positionStyle (some "constructor") ≠ PropValue.ownStr "bottom: 20px; right: 20px;" ∧
      ("constructor" ≠ "bottom-right" ∧ "constructor" ≠ "bottom-left" ∧
        "constructor" ≠ "top-right" ∧ "constructor" ≠ "top-left") := by
  exact ⟨by decide, by decide, by decide, by decide, by decide⟩
